import Mathlib

/-!
Verification of the proof-guard backend core: the shipment proof lifecycle
state machine (`ShipmentsService`), the upload coordinator (`VideosService`),
and the share-link issuer (`ShareLinksService`), shallowly embedded from the
TypeScript sources.  Database state is a record of entity lists; Prisma calls
are modelled as pure functions on that state; each distinct `throw` site of
the services is mapped to a constructor of `AppError` carrying the data its
message interpolates.
-/

namespace ProofGuard

/-- Shipment lifecycle states, from the `ShipmentStatus` Prisma enum used by
`src/shipments/shipments.service.ts`. -/
inductive ShipmentStatus where
  | CREATED
  | RECORDING
  | PROCESSING
  | SEALED
  | FAILED
  deriving DecidableEq, Repr

/-- Error outcomes, one constructor per distinct error the services raise.
`invalidTransition` carries exactly the data interpolated into the
`BadRequestException` message of `validateStateTransition` (current status,
requested status, allowed-transition list); `immutableEntity` is the
"Cannot modify a sealed shipment" `BadRequestException`; `invalidState` is the
"Cannot upload video to a sealed/failed shipment" `BadRequestException`;
`uploadFailed` is the `InternalServerErrorException` of `S3Service.uploadFile`;
`expired` is the `UnauthorizedException` of `validateToken`;
`dbRecordNotFound` models Prisma's error when `update` targets a missing row. -/
inductive AppError where
  | notFound (entity id : String)
  | conflict (entity id : String)
  | immutableEntity (id : String)
  | invalidTransition (current requested : ShipmentStatus) (allowed : List ShipmentStatus)
  | invalidState (status : ShipmentStatus) (shipmentId : String)
  | uploadFailed (msg : String)
  | expired
  | dbRecordNotFound (id : String)
  deriving DecidableEq, Repr

/-- A shipment row (table `shipments` in the Prisma schema). -/
structure Shipment where
  id : String
  awb : String
  status : ShipmentStatus
  organizationId : String
  createdById : String
  deriving DecidableEq, Repr

/-- A proof-video row (table `proof_videos`; unique index on `shipmentId`). -/
structure ProofVideo where
  id : String
  shipmentId : String
  videoUrl : String
  uploadedById : String
  deriving DecidableEq, Repr

/-- A share-link row (table `share_links`; unique index on `token`).
Timestamps are modelled as integers. -/
structure ShareLink where
  id : String
  token : String
  proofVideoId : String
  expiresAt : Int
  deriving DecidableEq, Repr

/-- The durable database state: the three entity tables the core touches. -/
structure DB where
  shipments : List Shipment
  proofVideos : List ProofVideo
  shareLinks : List ShareLink
  deriving DecidableEq, Repr

/-- Constraints the schema enforces (`migration.sql`): primary keys are
unique, `proof_videos.shipmentId` is unique and a foreign key into
`shipments`, `share_links.token` is unique and `proofVideoId` a foreign key
into `proof_videos`. -/
def DB.wf (db : DB) : Prop :=
  (db.shipments.map Shipment.id).Nodup ∧
  (db.proofVideos.map ProofVideo.shipmentId).Nodup ∧
  (∀ v ∈ db.proofVideos, ∃ s ∈ db.shipments, s.id = v.shipmentId) ∧
  (db.shareLinks.map ShareLink.token).Nodup

instance (db : DB) : Decidable db.wf := by
  unfold DB.wf
  infer_instance

/-- The body of `PATCH /shipments/:id`: an optional requested status
(`UpdateShipmentDto` declares no other field). -/
structure UpdateShipmentDto where
  status : Option ShipmentStatus
  deriving DecidableEq, Repr

/-- `prisma.shipment.findUnique` by id (`ShipmentsRepository.findById`). -/
def ShipmentsRepository.findById (db : DB) (id : String) : Option Shipment :=
  db.shipments.find? (fun s => s.id == id)

/-- The field assignment `prisma.shipment.update` performs for a given DTO:
set `status` when the DTO carries one, otherwise no field changes. -/
def applyShipmentUpdate (dto : UpdateShipmentDto) (s : Shipment) : Shipment :=
  match dto.status with
  | some st => { s with status := st }
  | none => s

/-- `ShipmentsRepository.update`: `prisma.shipment.update` on the row with
the given id; Prisma raises an error when no such row exists. -/
def ShipmentsRepository.update (db : DB) (id : String) (dto : UpdateShipmentDto) :
    Except AppError (Shipment × DB) :=
  match db.shipments.find? (fun s => s.id == id) with
  | none => .error (.dbRecordNotFound id)
  | some s =>
      let s2 := applyShipmentUpdate dto s
      .ok (s2, { db with
        shipments := db.shipments.map (fun t => if t.id == id then s2 else t) })

/-- The `validTransitions` table of `ShipmentsService`
(`src/shipments/shipments.service.ts`, lines 15 to 21). -/
def validTransitions : ShipmentStatus → List ShipmentStatus
  | .CREATED => [.RECORDING, .FAILED]
  | .RECORDING => [.PROCESSING, .FAILED]
  | .PROCESSING => [.SEALED, .FAILED]
  | .SEALED => []
  | .FAILED => []

/-- `ShipmentsService.validateStateTransition` (lines 76 to 93): same status
is allowed (idempotent updates); otherwise the requested status must be in
the `validTransitions` row of the current status. -/
def validateStateTransition (currentStatus newStatus : ShipmentStatus) :
    Except AppError Unit :=
  if currentStatus = newStatus then
    .ok ()
  else if newStatus ∈ validTransitions currentStatus then
    .ok ()
  else
    .error (.invalidTransition currentStatus newStatus (validTransitions currentStatus))

/-- `ShipmentsService.update` (lines 54 to 70): look the shipment up
(`NotFound` when absent), refuse any modification of a `SEALED` shipment,
validate the transition when the DTO carries a status, then persist. -/
def ShipmentsService.update (db : DB) (id : String) (dto : UpdateShipmentDto) :
    Except AppError (Shipment × DB) :=
  match ShipmentsRepository.findById db id with
  | none => .error (.notFound "Shipment" id)
  | some shipment =>
      if shipment.status = .SEALED then
        .error (.immutableEntity id)
      else
        match dto.status with
        | some newStatus =>
            match validateStateTransition shipment.status newStatus with
            | .error e => .error e
            | .ok _ => ShipmentsRepository.update db id dto
        | none => ShipmentsRepository.update db id dto

/-- Outcome of the blob-storage call `S3Service.uploadFile`
(`src/common/services/s3.service.ts`): the call either returns a durable URL
or raises an `InternalServerErrorException`; it is external to the database
and its outcome is an input of the model. -/
inductive S3Outcome where
  | ok (url : String)
  | failed (msg : String)
  deriving DecidableEq, Repr

/-- `prisma.proofVideo.findUnique` by `shipmentId`
(`VideosRepository.findByShipmentId`). -/
def VideosRepository.findByShipmentId (db : DB) (shipmentId : String) :
    Option ProofVideo :=
  db.proofVideos.find? (fun v => v.shipmentId == shipmentId)

/-- `VideosRepository.create`: `prisma.proofVideo.create`, which commits the
new row unless the unique index on `shipmentId` is violated (Prisma raises a
unique-constraint error, surfaced as a conflict).  The generated UUID primary
key is taken as the input `id`. -/
def VideosRepository.create (db : DB) (v : ProofVideo) :
    Except AppError (ProofVideo × DB) :=
  if db.proofVideos.any (fun w => w.shipmentId == v.shipmentId) then
    .error (.conflict "ProofVideo" v.shipmentId)
  else
    .ok (v, { db with proofVideos := db.proofVideos ++ [v] })

/-- `VideosService.upload` (`src/videos/videos.service.ts`, lines 21 to 75):
conflict check on an existing proof video, shipment lookup (`NotFound` when
absent), `BadRequestException` when the shipment is `SEALED` or `FAILED`,
then the S3 upload, then `videosRepository.create`, then
`shipmentsRepository.update` to status `SEALED`.  The last two are two
separate repository calls with no surrounding transaction; each commits on
its own. -/
def VideosService.upload (db : DB) (shipmentId : String) (s3 : S3Outcome)
    (videoId uploadedById : String) : Except AppError (ProofVideo × DB) :=
  match VideosRepository.findByShipmentId db shipmentId with
  | some _ => .error (.conflict "ProofVideo" shipmentId)
  | none =>
      match ShipmentsRepository.findById db shipmentId with
      | none => .error (.notFound "Shipment" shipmentId)
      | some shipment =>
          if shipment.status = .SEALED then
            .error (.invalidState .SEALED shipmentId)
          else if shipment.status = .FAILED then
            .error (.invalidState .FAILED shipmentId)
          else
            match s3 with
            | .failed msg => .error (.uploadFailed msg)
            | .ok url =>
                match VideosRepository.create db
                    { id := videoId, shipmentId := shipmentId,
                      videoUrl := url, uploadedById := uploadedById } with
                | .error e => .error e
                | .ok (video, db1) =>
                    match ShipmentsRepository.update db1 shipmentId
                        { status := some .SEALED } with
                    | .error e => .error e
                    | .ok (_, db2) => .ok (video, db2)

/-- The durable state of `VideosService.upload` after its first database
write (the `videosRepository.create` call) has committed and before its
second (the `shipmentsRepository.update` that seals the shipment) commits.
Because the two calls are separate Prisma statements with no surrounding
transaction, each commits independently, and this intermediate state is the
durable state when execution stops between them (process crash, lost
connection, or a failing update). -/
def VideosService.uploadStoppedBeforeSeal (db : DB) (shipmentId : String)
    (s3 : S3Outcome) (videoId uploadedById : String) :
    Except AppError (ProofVideo × DB) :=
  match VideosRepository.findByShipmentId db shipmentId with
  | some _ => .error (.conflict "ProofVideo" shipmentId)
  | none =>
      match ShipmentsRepository.findById db shipmentId with
      | none => .error (.notFound "Shipment" shipmentId)
      | some shipment =>
          if shipment.status = .SEALED then
            .error (.invalidState .SEALED shipmentId)
          else if shipment.status = .FAILED then
            .error (.invalidState .FAILED shipmentId)
          else
            match s3 with
            | .failed msg => .error (.uploadFailed msg)
            | .ok url =>
                VideosRepository.create db
                  { id := videoId, shipmentId := shipmentId,
                    videoUrl := url, uploadedById := uploadedById }

/-- `prisma.shareLink.findUnique` by token
(`ShareLinksRepository.findByToken`). -/
def ShareLinksRepository.findByToken (db : DB) (token : String) :
    Option ShareLink :=
  db.shareLinks.find? (fun l => l.token == token)

/-- `ShareLinksService.validateToken` (`src/share-links/share-links.service.ts`,
lines 40 to 52): `NotFoundException` when no link carries the token,
`UnauthorizedException` when `new Date() > expiresAt` (strictly later), and
otherwise the link (with its bound proof video) is returned.  The function
reads only; no row is deleted or written. -/
def ShareLinksService.validateToken (db : DB) (token : String) (now : Int) :
    Except AppError ShareLink :=
  match ShareLinksRepository.findByToken db token with
  | none => .error (.notFound "ShareLink" token)
  | some shareLink =>
      if now > shareLink.expiresAt then
        .error .expired
      else
        .ok shareLink

/-- `ShareLinksRepository.deleteExpired` (`share-links.repository.ts`, lines
81 to 89): `prisma.shareLink.deleteMany` with `expiresAt < now`, returning
the number of deleted rows. -/
def ShareLinksRepository.deleteExpired (db : DB) (now : Int) : Nat × DB :=
  ((db.shareLinks.filter (fun l => l.expiresAt < now)).length,
   { db with shareLinks := db.shareLinks.filter (fun l => !(l.expiresAt < now)) })

/-- `ShareLinksService.cleanupExpired` (lines 59 to 61): delegates to
`deleteExpired`. -/
def ShareLinksService.cleanupExpired (db : DB) (now : Int) : Nat × DB :=
  ShareLinksRepository.deleteExpired db now

/-- The mutating operations of the core reachable through the API: a status
transition request (`PATCH /shipments/:id`) and a proof-video upload
(`POST /videos/upload`, with the external S3 outcome and the generated video
id as inputs). -/
inductive Op where
  | transition (id : String) (dto : UpdateShipmentDto)
  | upload (shipmentId : String) (s3 : S3Outcome) (videoId uploadedById : String)
  deriving DecidableEq, Repr

/-- One request against the durable state: a thrown error leaves the
database unchanged (the services raise before any write on their guard
paths). -/
def step (db : DB) : Op → DB
  | .transition id dto =>
      match ShipmentsService.update db id dto with
      | .ok (_, db2) => db2
      | .error _ => db
  | .upload shipmentId s3 videoId uploadedById =>
      match VideosService.upload db shipmentId s3 videoId uploadedById with
      | .ok (_, db2) => db2
      | .error _ => db

/-- Run a sequence of requests. -/
def runOps (db : DB) : List Op → DB
  | [] => db
  | op :: ops => runOps (step db op) ops

/-- The status of a shipment in a database state. -/
def statusOf (db : DB) (id : String) : Option ShipmentStatus :=
  (ShipmentsRepository.findById db id).map Shipment.status

/-- The statuses a shipment passes through along a run, initial state
included. -/
def statusTrace (db : DB) (id : String) : List Op → List (Option ShipmentStatus)
  | [] => [statusOf db id]
  | op :: ops => statusOf db id :: statusTrace (step db op) id ops

/-! Concrete entities and database states used as witnesses and
counterexamples. -/

/-- A shipment in `CREATED` state. -/
def shipCre : Shipment :=
  { id := "sc", awb := "AWB-C", status := .CREATED, organizationId := "org1", createdById := "u1" }

/-- A shipment in `SEALED` state. -/
def shipSea : Shipment :=
  { id := "ss", awb := "AWB-S", status := .SEALED, organizationId := "org1", createdById := "u1" }

/-- A shipment in `FAILED` state. -/
def shipFai : Shipment :=
  { id := "sf", awb := "AWB-F", status := .FAILED, organizationId := "org1", createdById := "u1" }

/-- A shipment in `PROCESSING` state. -/
def shipPro : Shipment :=
  { id := "sp", awb := "AWB-P", status := .PROCESSING, organizationId := "org1", createdById := "u1" }

/-- A database with one shipment in each lifecycle state bar `RECORDING`,
and no proof videos or share links. -/
def dbDemo : DB :=
  { shipments := [shipCre, shipSea, shipFai, shipPro], proofVideos := [], shareLinks := [] }

/-- The proof video created by uploading against shipment `sp`. -/
def vidMid : ProofVideo :=
  { id := "vsp", shipmentId := "sp", videoUrl := "url-sp", uploadedById := "u1" }

/-- The durable state after `upload`'s video insert against `sp` commits and
before its seal update commits. -/
def dbMid : DB :=
  { shipments := dbDemo.shipments, proofVideos := [vidMid], shareLinks := [] }

/-- `shipPro` after sealing. -/
def shipProSealed : Shipment :=
  { id := "sp", awb := "AWB-P", status := .SEALED, organizationId := "org1", createdById := "u1" }

/-- The state after a complete (uninterrupted) upload against `sp`. -/
def dbSpFull : DB :=
  { shipments := [shipCre, shipSea, shipFai, shipProSealed], proofVideos := [vidMid], shareLinks := [] }

/-- The proof video created by uploading against shipment `sc`. -/
def vid7 : ProofVideo :=
  { id := "v7", shipmentId := "sc", videoUrl := "u7", uploadedById := "u1" }

/-- `shipCre` after sealing. -/
def shipCreSealed : Shipment :=
  { id := "sc", awb := "AWB-C", status := .SEALED, organizationId := "org1", createdById := "u1" }

/-- The state after a complete upload against `sc`. -/
def db7 : DB :=
  { shipments := [shipCreSealed, shipSea, shipFai, shipPro], proofVideos := [vid7], shareLinks := [] }

/-- A share link that expires at time 100. -/
def linkOld : ShareLink :=
  { id := "l1", token := "tokOld", proofVideoId := "vsp", expiresAt := 100 }

/-- A share link that expires at time 1000. -/
def linkNew : ShareLink :=
  { id := "l2", token := "tokNew", proofVideoId := "vsp", expiresAt := 1000 }

/-- A database holding only the two share links above. -/
def dbLinks : DB :=
  { shipments := [], proofVideos := [], shareLinks := [linkOld, linkNew] }

/-! Helper lemmas about the repository layer. -/

theorem find_map_of_id_eq (l : List Shipment) (f : Shipment → Shipment)
    (id : String) (h : ∀ s, (f s).id = s.id) :
    (l.map f).find? (fun s => s.id == id) = (l.find? (fun s => s.id == id)).map f := by
  induction l with
  | nil => simp
  | cons a t ih =>
      simp only [List.map_cons, List.find?_cons, h a]
      cases hb : (a.id == id) with
      | false => simpa [hb] using ih
      | true => simp [hb]

theorem map_update_self (l : List Shipment) (id : String) (s : Shipment)
    (hnd : (l.map Shipment.id).Nodup)
    (hfind : l.find? (fun x => x.id == id) = some s) :
    l.map (fun t => if t.id == id then s else t) = l := by
  induction l with
  | nil => simp at hfind
  | cons a t ih =>
      simp only [List.map_cons, List.nodup_cons] at hnd
      simp only [List.find?_cons] at hfind
      cases hb : (a.id == id) with
      | true =>
          rw [hb] at hfind
          have hsa : a = s := Option.some.inj hfind
          have hid : a.id = id := by simpa using hb
          subst hsa
          simp only [List.map_cons, hb, if_pos]
          refine congrArg (a :: ·) ?_
          have hfix : ∀ x ∈ t, (fun t' : Shipment => if t'.id == id then a else t') x = x := by
            intro x hx
            have hxid : (x.id == id) = false := by
              simp only [beq_eq_false_iff_ne, ne_eq]
              intro hcontra
              exact hnd.1 (List.mem_map.mpr ⟨x, hx, by rw [hcontra, hid]⟩)
            simp [hxid]
          calc List.map (fun t' => if t'.id == id then a else t') t
              = List.map (fun x => x) t := List.map_congr_left hfix
            _ = t := by simp
      | false =>
          rw [hb] at hfind
          simp only [List.map_cons, hb, if_neg]
          rw [ih hnd.2 hfind]
          simp [hb]

theorem repoUpdate_eq (db : DB) (id : String) (dto : UpdateShipmentDto)
    (s : Shipment) (hfind : ShipmentsRepository.findById db id = some s) :
    ShipmentsRepository.update db id dto =
      .ok (applyShipmentUpdate dto s, { db with shipments := List.map (fun t => if t.id == id then applyShipmentUpdate dto s else t) db.shipments }) := by
  unfold ShipmentsRepository.update
  unfold ShipmentsRepository.findById at hfind
  rw [hfind]

theorem repoUpdate_noop (db : DB) (id : String) (dto : UpdateShipmentDto)
    (s : Shipment)
    (hnd : (db.shipments.map Shipment.id).Nodup)
    (hfind : ShipmentsRepository.findById db id = some s)
    (hnoop : applyShipmentUpdate dto s = s) :
    ShipmentsRepository.update db id dto = .ok (s, db) := by
  rw [repoUpdate_eq db id dto s hfind, hnoop]
  unfold ShipmentsRepository.findById at hfind
  rw [map_update_self db.shipments id s hnd hfind]

theorem applyShipmentUpdate_status_self (s : Shipment) :
    applyShipmentUpdate { status := some s.status } s = s := rfl

theorem validate_same (st : ShipmentStatus) :
    validateStateTransition st st = .ok () := by
  simp [validateStateTransition]

theorem exceptIsOk_ok (x : α) : (Except.ok x : Except AppError α).isOk = true := rfl

theorem exceptIsOk_err (e : AppError) : (Except.error e : Except AppError α).isOk = false := rfl

/-! Claim C1. -/

/-- C1 (amended): for a shipment with current status `a` and a requested
status `b ≠ a`, `ShipmentsService.update` succeeds iff `b` is in the
allowed-next set `validTransitions a`; when it fails and `a ≠ SEALED` the
error is `InvalidTransition` carrying the current status, the requested
status and the (possibly empty) allowed-next list; when `a = SEALED` the
error is instead `ImmutableEntity` (the sealed-shipment guard runs before
transition validation), which refutes the claim's assertion that every such
failure carries the `InvalidTransition` diagnostics. -/
theorem C1_requestTransition_characterization (db : DB) (id : String)
    (s : Shipment) (b : ShipmentStatus)
    (hfind : ShipmentsRepository.findById db id = some s)
    (hne : b ≠ s.status) :
    ((ShipmentsService.update db id { status := some b }).isOk = true ↔
      b ∈ validTransitions s.status) ∧
    (s.status = .SEALED →
      ShipmentsService.update db id { status := some b } =
        .error (.immutableEntity id)) ∧
    (s.status ≠ .SEALED → b ∉ validTransitions s.status →
      ShipmentsService.update db id { status := some b } =
        .error (.invalidTransition s.status b (validTransitions s.status))) := by
  unfold ShipmentsService.update
  rw [hfind]
  dsimp only
  by_cases hs : s.status = .SEALED
  · rw [if_pos hs]
    refine ⟨?_, fun _ => rfl, fun h _ => absurd hs h⟩
    rw [hs]
    simp [validTransitions, exceptIsOk_err]
  · rw [if_neg hs]
    unfold validateStateTransition
    rw [if_neg (Ne.symm hne)]
    by_cases hmem : b ∈ validTransitions s.status
    · rw [if_pos hmem]
      dsimp only
      rw [repoUpdate_eq db id _ s hfind]
      refine ⟨?_, fun h => absurd h hs, fun _ h => absurd hmem h⟩
      simp [exceptIsOk_ok, hmem]
    · rw [if_neg hmem]
      refine ⟨?_, fun h => absurd h hs, fun _ _ => rfl⟩
      simp [exceptIsOk_err, hmem]

/-- C1 counterexample: a request to move a `SEALED` shipment to `CREATED`
fails as the claim predicts, but with the `ImmutableEntity` error, not with
an `InvalidTransition` error carrying current status, requested status and
the empty allowed list. -/
theorem C1_requestTransition_counterexample :
    ShipmentsService.update dbDemo "ss" { status := some .CREATED } =
      .error (.immutableEntity "ss") ∧
    AppError.immutableEntity "ss" ≠
      AppError.invalidTransition .SEALED .CREATED (validTransitions .SEALED) :=
  ⟨rfl, by decide⟩

/-- Witness for C1: a `CREATED` shipment accepts the allowed move to
`RECORDING`. -/
theorem C1_requestTransition_witness :
    (ShipmentsService.update dbDemo "sc" { status := some .RECORDING }).isOk = true :=
  (C1_requestTransition_characterization dbDemo "sc" shipCre .RECORDING rfl
    (by decide)).1.mpr (by decide)

/-! Claim C3. -/

/-- C3 (amended): once a shipment is `SEALED`, every update attempt fails
with `ImmutableEntity`; once it is `FAILED`, an update requesting a
different status fails with `InvalidTransition`, while an update requesting
`FAILED` again or carrying no status field succeeds as a no-op that returns
the shipment and database completely unchanged.  In all cases no field of a
terminal shipment ever changes, but the claim's stronger assertion that
every mutation attempt fails is refuted by the `FAILED` no-op. -/
theorem C3_terminal_immutability (db : DB) (id : String) (s : Shipment)
    (dto : UpdateShipmentDto)
    (hwf : db.wf)
    (hfind : ShipmentsRepository.findById db id = some s) :
    (s.status = .SEALED →
      ShipmentsService.update db id dto = .error (.immutableEntity id)) ∧
    (s.status = .FAILED →
      (∀ b, dto.status = some b → b ≠ .FAILED →
        ShipmentsService.update db id dto =
          .error (.invalidTransition .FAILED b [])) ∧
      ((dto.status = some .FAILED ∨ dto.status = none) →
        ShipmentsService.update db id dto = .ok (s, db))) := by
  unfold ShipmentsService.update
  rw [hfind]
  dsimp only
  constructor
  · intro hS
    rw [if_pos hS]
  · intro hF
    have hs : ¬ (s.status = ShipmentStatus.SEALED) := by rw [hF]; intro h; cases h
    rw [if_neg hs]
    constructor
    · intro b hb hbne
      rw [hb]
      dsimp only
      unfold validateStateTransition
      rw [hF]
      rw [if_neg (Ne.symm hbne)]
      rw [if_neg (by simp [validTransitions])]
      rfl
    · intro hcase
      have hnoop : applyShipmentUpdate dto s = s := by
        rcases hcase with h | h
        · unfold applyShipmentUpdate
          rw [h, ← hF]
        · unfold applyShipmentUpdate
          rw [h]
      rcases hcase with h | h
      · rw [h]
        dsimp only
        unfold validateStateTransition
        rw [hF, if_pos rfl]
        dsimp only
        exact repoUpdate_noop db id dto s hwf.1 hfind hnoop
      · rw [h]
        dsimp only
        exact repoUpdate_noop db id dto s hwf.1 hfind hnoop

/-- C3 counterexample: an update that requests `FAILED` on an already
`FAILED` shipment succeeds (as a no-op), so not every mutation attempt on a
terminal shipment fails. -/
theorem C3_terminal_counterexample :
    (ShipmentsService.update dbDemo "sf" { status := some .FAILED }).isOk = true := by
  decide

/-- Witness for C3: an update on a `SEALED` shipment fails with the
immutability error. -/
theorem C3_terminal_witness :
    ShipmentsService.update dbDemo "ss" { status := some .RECORDING } =
      .error (.immutableEntity "ss") :=
  (C3_terminal_immutability dbDemo "ss" shipSea { status := some .RECORDING }
    (by decide) rfl).1 rfl

/-! Claim C5. -/

/-- C5 (amended): `validateStateTransition` treats a same-status request as
a no-op for every status, and `ShipmentsService.update` with the current
status succeeds as a no-op (returning the shipment and database unchanged)
for every status except `SEALED`; for a `SEALED` shipment the immutability
guard rejects the request with `ImmutableEntity` before the idempotence
check is reached, which refutes the claim's "including SEALED" clause. -/
theorem C5_idempotent_update (db : DB) (id : String) (s : Shipment)
    (hwf : db.wf)
    (hfind : ShipmentsRepository.findById db id = some s) :
    (∀ st, validateStateTransition st st = .ok ()) ∧
    (s.status ≠ .SEALED →
      ShipmentsService.update db id { status := some s.status } = .ok (s, db)) ∧
    (s.status = .SEALED →
      ShipmentsService.update db id { status := some s.status } =
        .error (.immutableEntity id)) := by
  refine ⟨validate_same, ?_, ?_⟩
  · intro hs
    unfold ShipmentsService.update
    rw [hfind]
    dsimp only
    rw [if_neg hs]
    unfold validateStateTransition
    rw [if_pos rfl]
    dsimp only
    exact repoUpdate_noop db id _ s hwf.1 hfind (applyShipmentUpdate_status_self s)
  · intro hs
    unfold ShipmentsService.update
    rw [hfind]
    dsimp only
    rw [if_pos hs]

/-- C5 counterexample: requesting `SEALED` on an already `SEALED` shipment
does not succeed as a no-op; it fails with the immutability error. -/
theorem C5_idempotent_counterexample :
    ShipmentsService.update dbDemo "ss" { status := some .SEALED } =
      .error (.immutableEntity "ss") := rfl

/-- Witness for C5: requesting `FAILED` on a `FAILED` shipment succeeds and
returns shipment and database unchanged. -/
theorem C5_idempotent_witness :
    ShipmentsService.update dbDemo "sf" { status := some .FAILED } =
      .ok (shipFai, dbDemo) :=
  (C5_idempotent_update dbDemo "sf" shipFai (by decide) rfl).2.1 (by decide)

/-! Helper lemmas about the upload coordinator and the status machine. -/

theorem upload_success_eq (db : DB) (sid url vid uid : String) (s : Shipment)
    (hv : VideosRepository.findByShipmentId db sid = none)
    (hs : ShipmentsRepository.findById db sid = some s)
    (h1 : s.status ≠ .SEALED) (h2 : s.status ≠ .FAILED) :
    VideosService.upload db sid (.ok url) vid uid =
      .ok ({ id := vid, shipmentId := sid, videoUrl := url, uploadedById := uid },
        { shipments := List.map (fun t => if t.id == sid then { s with status := ShipmentStatus.SEALED } else t) db.shipments,
          proofVideos := db.proofVideos ++ [{ id := vid, shipmentId := sid, videoUrl := url, uploadedById := uid }],
          shareLinks := db.shareLinks }) := by
  unfold VideosService.upload
  rw [hv, hs]
  dsimp only
  rw [if_neg h1, if_neg h2]
  unfold VideosRepository.create
  have hany : (db.proofVideos.any (fun w => w.shipmentId == sid)) = false := by
    unfold VideosRepository.findByShipmentId at hv
    rw [List.any_eq_false]
    intro w hw
    have := List.find?_eq_none.mp hv w hw
    simpa using this
  rw [if_neg (by rw [hany]; intro h; cases h)]
  dsimp only
  unfold ShipmentsRepository.update
  have hfind1 : List.find? (fun x : Shipment => x.id == sid) db.shipments = some s := hs
  rw [hfind1]
  rfl

theorem upload_ok_inv (db : DB) (sid : String) (s3 : S3Outcome) (vid uid : String)
    (video : ProofVideo) (db2 : DB)
    (h : VideosService.upload db sid s3 vid uid = .ok (video, db2)) :
    ∃ s url, VideosRepository.findByShipmentId db sid = none ∧
      ShipmentsRepository.findById db sid = some s ∧
      s.status ≠ .SEALED ∧ s.status ≠ .FAILED ∧ s3 = .ok url ∧
      video = { id := vid, shipmentId := sid, videoUrl := url, uploadedById := uid } ∧
      db2 = { shipments := List.map (fun t => if t.id == sid then { s with status := ShipmentStatus.SEALED } else t) db.shipments,
              proofVideos := db.proofVideos ++ [video],
              shareLinks := db.shareLinks } := by
  unfold VideosService.upload at h
  cases hv : VideosRepository.findByShipmentId db sid with
  | some v => rw [hv] at h; simp at h
  | none =>
      rw [hv] at h
      dsimp only at h
      cases hsf : ShipmentsRepository.findById db sid with
      | none => rw [hsf] at h; simp at h
      | some s =>
          rw [hsf] at h
          dsimp only at h
          by_cases h1 : s.status = ShipmentStatus.SEALED
          · rw [if_pos h1] at h; simp at h
          · rw [if_neg h1] at h
            by_cases h2 : s.status = ShipmentStatus.FAILED
            · rw [if_pos h2] at h; simp at h
            · rw [if_neg h2] at h
              cases s3 with
              | failed msg => simp at h
              | ok url =>
                  dsimp only at h
                  unfold VideosRepository.create at h
                  by_cases hany : (db.proofVideos.any (fun w => w.shipmentId == sid)) = true
                  · rw [if_pos hany] at h; simp at h
                  · rw [if_neg hany] at h
                    dsimp only at h
                    unfold ShipmentsRepository.update at h
                    dsimp only at h
                    rw [show List.find? (fun x : Shipment => x.id == sid) db.shipments = some s from hsf] at h
                    dsimp only at h
                    rw [Except.ok.injEq, Prod.mk.injEq] at h
                    refine ⟨s, url, rfl, rfl, h1, h2, rfl, h.1.symm, ?_⟩
                    rw [← h.2, ← h.1]
                    rfl

theorem validate_ok_inv (a b : ShipmentStatus)
    (h : validateStateTransition a b = .ok ()) :
    a = b ∨ b ∈ validTransitions a := by
  unfold validateStateTransition at h
  by_cases hab : a = b
  · exact Or.inl hab
  · rw [if_neg hab] at h
    by_cases hm : b ∈ validTransitions a
    · exact Or.inr hm
    · rw [if_neg hm] at h; simp at h

theorem sealed_target_processing (a : ShipmentStatus)
    (h : ShipmentStatus.SEALED ∈ validTransitions a) : a = .PROCESSING := by
  cases a <;> simp_all [validTransitions]

theorem not_terminal_cases (a : ShipmentStatus) (h1 : a ≠ .SEALED) (h2 : a ≠ .FAILED) :
    a = .CREATED ∨ a = .RECORDING ∨ a = .PROCESSING := by
  cases a
  · exact Or.inl rfl
  · exact Or.inr (Or.inl rfl)
  · exact Or.inr (Or.inr rfl)
  · exact absurd rfl h1
  · exact absurd rfl h2

theorem pre_seal_not_terminal (a : ShipmentStatus)
    (h : a = .CREATED ∨ a = .RECORDING ∨ a = .PROCESSING) :
    a ≠ .SEALED ∧ a ≠ .FAILED := by
  constructor
  · intro hc
    rcases h with h | h | h <;> rw [h] at hc <;> cases hc
  · intro hc
    rcases h with h | h | h <;> rw [h] at hc <;> cases hc

theorem serviceUpdate_ok_inv (db : DB) (id : String) (dto : UpdateShipmentDto)
    (r : Shipment) (db2 : DB)
    (h : ShipmentsService.update db id dto = .ok (r, db2)) :
    ∃ s, ShipmentsRepository.findById db id = some s ∧
      s.status ≠ .SEALED ∧
      (∀ b, dto.status = some b → validateStateTransition s.status b = .ok ()) ∧
      r = applyShipmentUpdate dto s ∧
      db2 = { db with shipments := List.map (fun t => if t.id == id then applyShipmentUpdate dto s else t) db.shipments } := by
  unfold ShipmentsService.update at h
  cases hsf : ShipmentsRepository.findById db id with
  | none => rw [hsf] at h; simp at h
  | some s =>
      rw [hsf] at h
      dsimp only at h
      by_cases h1 : s.status = ShipmentStatus.SEALED
      · rw [if_pos h1] at h; simp at h
      · rw [if_neg h1] at h
        cases hd : dto.status with
        | some b =>
            rw [hd] at h
            dsimp only at h
            cases hval : validateStateTransition s.status b with
            | error e => rw [hval] at h; simp at h
            | ok u =>
                rw [hval] at h
                dsimp only at h
                rw [repoUpdate_eq db id dto s hsf] at h
                rw [Except.ok.injEq, Prod.mk.injEq] at h
                refine ⟨s, rfl, h1, ?_, h.1.symm, h.2.symm⟩
                intro b' hb'
                cases Option.some.inj hb'
                cases u
                exact hval
        | none =>
            rw [hd] at h
            dsimp only at h
            rw [repoUpdate_eq db id dto s hsf] at h
            rw [Except.ok.injEq, Prod.mk.injEq] at h
            refine ⟨s, rfl, h1, ?_, h.1.symm, h.2.symm⟩
            intro b' hb'
            simp at hb'

theorem upload_guard_notFound (db : DB) (sid : String) (s3 : S3Outcome)
    (vid uid : String)
    (hfk : ∀ v ∈ db.proofVideos, ∃ s ∈ db.shipments, s.id = v.shipmentId)
    (habs : ShipmentsRepository.findById db sid = none) :
    VideosService.upload db sid s3 vid uid = .error (.notFound "Shipment" sid) := by
  have hvnone : VideosRepository.findByShipmentId db sid = none := by
    unfold VideosRepository.findByShipmentId
    rw [List.find?_eq_none]
    intro v hvmem
    obtain ⟨sh, hshmem, hsheq⟩ := hfk v hvmem
    unfold ShipmentsRepository.findById at habs
    have hnm := List.find?_eq_none.mp habs sh hshmem
    simp only [beq_iff_eq] at hnm ⊢
    intro hc
    exact hnm (by rw [hsheq, hc])
  unfold VideosService.upload
  rw [hvnone, habs]

theorem upload_guard_conflict (db : DB) (sid : String) (s3 : S3Outcome)
    (vid uid : String) (v : ProofVideo)
    (hv : VideosRepository.findByShipmentId db sid = some v) :
    VideosService.upload db sid s3 vid uid = .error (.conflict "ProofVideo" sid) := by
  unfold VideosService.upload
  rw [hv]

theorem upload_guard_invalidState (db : DB) (sid : String) (s3 : S3Outcome)
    (vid uid : String) (s : Shipment)
    (hv : VideosRepository.findByShipmentId db sid = none)
    (hs : ShipmentsRepository.findById db sid = some s)
    (hT : s.status = .SEALED ∨ s.status = .FAILED) :
    VideosService.upload db sid s3 vid uid = .error (.invalidState s.status sid) := by
  unfold VideosService.upload
  rw [hv, hs]
  dsimp only
  rcases hT with h | h
  · rw [if_pos h, h]
  · rw [if_neg (by rw [h]; intro hc; cases hc), if_pos h, h]

theorem upload_blobfail_eq (db : DB) (sid vid uid msg : String) (s : Shipment)
    (hv : VideosRepository.findByShipmentId db sid = none)
    (hs : ShipmentsRepository.findById db sid = some s)
    (h1 : s.status ≠ .SEALED) (h2 : s.status ≠ .FAILED) :
    VideosService.upload db sid (.failed msg) vid uid = .error (.uploadFailed msg) := by
  unfold VideosService.upload
  rw [hv, hs]
  dsimp only
  rw [if_neg h1, if_neg h2]

theorem length_filter_split (l : List ShareLink) (p : ShareLink → Bool) :
    (l.filter p).length + (l.filter (fun x => !(p x))).length = l.length := by
  induction l with
  | nil => rfl
  | cons a t ih =>
      by_cases h : p a = true
      · simp [List.filter_cons, h]
        omega
      · have h2 : p a = false := by
          cases hpa : p a
          · rfl
          · exact absurd hpa h
        simp [List.filter_cons, h2]
        omega

/-! Claim C2. -/

/-- C2: the ProofVideo insert and the transition to `SEALED` inside
`VideosService.upload` are not one atomic unit: they are two separate
repository calls, each committing its own Prisma statement.  Evaluating the
code at the failing input (a `PROCESSING` shipment `sp` whose upload is
interrupted between the two commits): the durable intermediate state
`dbMid` contains the ProofVideo while the shipment is still `PROCESSING`,
not `SEALED`; only the uninterrupted run reaches `SEALED`.  So there is an
execution in which a ProofVideo exists whose shipment is not sealed,
contradicting the claim. -/
theorem C2_upload_seal_not_atomic :
    VideosService.uploadStoppedBeforeSeal dbDemo "sp" (S3Outcome.ok "url-sp") "vsp" "u1" =
      .ok (vidMid, dbMid) ∧
    vidMid ∈ dbMid.proofVideos ∧
    vidMid.shipmentId = "sp" ∧
    statusOf dbMid "sp" = some ShipmentStatus.PROCESSING ∧
    statusOf dbMid "sp" ≠ some ShipmentStatus.SEALED ∧
    VideosService.upload dbDemo "sp" (S3Outcome.ok "url-sp") "vsp" "u1" =
      .ok (vidMid, dbSpFull) ∧
    statusOf dbSpFull "sp" = some ShipmentStatus.SEALED :=
  ⟨rfl, by decide, rfl, rfl, by decide, rfl, rfl⟩

/-! Claim C4. -/

/-- C4: `VideosService.upload` fails with `NotFound` when no shipment with
the given id exists (given the foreign-key invariant that every ProofVideo
references an existing shipment), fails with `Conflict` when a ProofVideo
already exists for the shipment, fails with `InvalidState` exactly when the
shipment (with no existing video) is `SEALED` or `FAILED`, succeeds past the
guards (with a working blob store) iff the status is `CREATED`, `RECORDING`
or `PROCESSING`, and leaves the database unchanged on every failure. -/
theorem C4_upload_guards (db : DB) (sid : String) (s3 : S3Outcome) (vid uid : String)
    (hfk : ∀ v ∈ db.proofVideos, ∃ s ∈ db.shipments, s.id = v.shipmentId) :
    (ShipmentsRepository.findById db sid = none →
      VideosService.upload db sid s3 vid uid = .error (.notFound "Shipment" sid)) ∧
    (∀ v, VideosRepository.findByShipmentId db sid = some v →
      VideosService.upload db sid s3 vid uid = .error (.conflict "ProofVideo" sid)) ∧
    (∀ s, ShipmentsRepository.findById db sid = some s →
      VideosRepository.findByShipmentId db sid = none →
      ((s.status = .SEALED ∨ s.status = .FAILED) ↔
        VideosService.upload db sid s3 vid uid = .error (.invalidState s.status sid))) ∧
    (∀ url, s3 = S3Outcome.ok url →
      ((VideosService.upload db sid s3 vid uid).isOk = true ↔
        ∃ s, ShipmentsRepository.findById db sid = some s ∧
          VideosRepository.findByShipmentId db sid = none ∧
          (s.status = .CREATED ∨ s.status = .RECORDING ∨ s.status = .PROCESSING))) ∧
    (∀ e, VideosService.upload db sid s3 vid uid = .error e →
      step db (Op.upload sid s3 vid uid) = db) := by
  refine ⟨upload_guard_notFound db sid s3 vid uid hfk,
    fun v hv => upload_guard_conflict db sid s3 vid uid v hv, ?_, ?_, ?_⟩
  · intro s hs hv
    constructor
    · exact upload_guard_invalidState db sid s3 vid uid s hv hs
    · intro herr
      by_cases hS : s.status = ShipmentStatus.SEALED
      · exact Or.inl hS
      · by_cases hF : s.status = ShipmentStatus.FAILED
        · exact Or.inr hF
        · exfalso
          cases s3 with
          | failed msg =>
              rw [upload_blobfail_eq db sid vid uid msg s hv hs hS hF] at herr
              simp at herr
          | ok url =>
              rw [upload_success_eq db sid url vid uid s hv hs hS hF] at herr
              simp at herr
  · intro url hs3
    subst hs3
    constructor
    · intro hok
      cases hu : VideosService.upload db sid (S3Outcome.ok url) vid uid with
      | error e => rw [hu] at hok; simp [exceptIsOk_err] at hok
      | ok vdb =>
          obtain ⟨v, db2⟩ := vdb
          obtain ⟨s, url2, hv, hs, h1, h2, hs3, hvid, hdb2⟩ :=
            upload_ok_inv db sid (S3Outcome.ok url) vid uid v db2 hu
          exact ⟨s, hs, hv, not_terminal_cases s.status h1 h2⟩
    · rintro ⟨s, hs, hv, hpre⟩
      obtain ⟨h1, h2⟩ := pre_seal_not_terminal s.status hpre
      rw [upload_success_eq db sid url vid uid s hv hs h1 h2]
      rfl
  · intro e he
    unfold step
    dsimp only
    rw [he]

/-- Witness for C4: uploading against the `CREATED` shipment `sc` with a
working blob store succeeds. -/
theorem C4_upload_guards_witness :
    (VideosService.upload dbDemo "sc" (S3Outcome.ok "u4") "v4" "u1").isOk = true :=
  ((C4_upload_guards dbDemo "sc" (S3Outcome.ok "u4") "v4" "u1"
      (by intro v hv; simp [dbDemo] at hv)).2.2.2.1 "u4" rfl).mpr
    ⟨shipCre, rfl, rfl, Or.inl rfl⟩

/-! Claim C6. -/

/-- C6 (amended): whenever one operation step turns a shipment's status into
`SEALED` from a different status, either the operation was a status
transition and the prior status was `PROCESSING` (direct transitions cannot
skip stages), or the operation was a proof-video upload for that shipment,
which seals from any of `CREATED`, `RECORDING` or `PROCESSING` and can
therefore skip the recording and processing stages, refuting the claim that
no shipment reaches `SEALED` without passing through them. -/
theorem C6_seal_origin (db : DB) (op : Op) (id : String) (s s2 : Shipment)
    (hbefore : ShipmentsRepository.findById db id = some s)
    (hafter : ShipmentsRepository.findById (step db op) id = some s2)
    (hns : s.status ≠ .SEALED)
    (hseal : s2.status = .SEALED) :
    s.status = .PROCESSING ∨
    ((s.status = .CREATED ∨ s.status = .RECORDING ∨ s.status = .PROCESSING) ∧
      ∃ s3 vid uid, op = Op.upload id s3 vid uid) := by
  have hsid : s.id = id := by simpa using List.find?_some hbefore
  cases op with
  | transition tid dto =>
      left
      unfold step at hafter
      dsimp only at hafter
      cases hupd : ShipmentsService.update db tid dto with
      | error e =>
          rw [hupd] at hafter
          dsimp only at hafter
          rw [hbefore] at hafter
          have hss : s = s2 := Option.some.inj hafter
          rw [← hss] at hseal
          exact absurd hseal hns
      | ok rdb =>
          rw [hupd] at hafter
          dsimp only at hafter
          obtain ⟨r, db2⟩ := rdb
          obtain ⟨s0, hs0, hns0, hval, hr, hdb2⟩ :=
            serviceUpdate_ok_inv db tid dto r db2 hupd
          have hs0id : s0.id = tid := by simpa using List.find?_some hs0
          have hpres : ∀ t : Shipment,
              ((fun t : Shipment => if t.id == tid then applyShipmentUpdate dto s0 else t) t).id = t.id := by
            intro t
            by_cases hb : (t.id == tid) = true
            · have ht : t.id = tid := by simpa using hb
              have happ : (applyShipmentUpdate dto s0).id = s0.id := by
                unfold applyShipmentUpdate
                cases dto.status <;> rfl
              simp [hb, happ, hs0id, ht]
            · simp [hb]
          rw [hdb2] at hafter
          unfold ShipmentsRepository.findById at hafter hbefore
          dsimp only at hafter
          rw [find_map_of_id_eq db.shipments _ id hpres] at hafter
          rw [hbefore] at hafter
          have heq := Option.some.inj hafter
          dsimp only at heq
          by_cases hb : (s.id == tid) = true
          · have htid : tid = id := by
              have hstid : s.id = tid := by simpa using hb
              rw [hsid] at hstid
              exact hstid.symm
            subst htid
            have hss0 : s0 = s := by
              unfold ShipmentsRepository.findById at hs0
              exact (Option.some.inj (hbefore.symm.trans hs0)).symm
            subst hss0
            rw [if_pos hb] at heq
            rw [← heq] at hseal
            cases hd : dto.status with
            | none =>
                unfold applyShipmentUpdate at hseal
                rw [hd] at hseal
                exact absurd hseal hns
            | some b =>
                unfold applyShipmentUpdate at hseal
                rw [hd] at hseal
                dsimp only at hseal
                rw [hseal] at hd
                have hok := hval .SEALED hd
                rcases validate_ok_inv s0.status .SEALED hok with hcase | hcase
                · exact absurd hcase hns
                · exact sealed_target_processing s0.status hcase
          · rw [if_neg hb] at heq
            rw [← heq] at hseal
            exact absurd hseal hns
  | upload sid s3 vid uid =>
      unfold step at hafter
      dsimp only at hafter
      cases hupl : VideosService.upload db sid s3 vid uid with
      | error e =>
          rw [hupl] at hafter
          dsimp only at hafter
          rw [hbefore] at hafter
          have hss : s = s2 := Option.some.inj hafter
          rw [← hss] at hseal
          exact absurd hseal hns
      | ok vdb =>
          rw [hupl] at hafter
          dsimp only at hafter
          obtain ⟨v, db2⟩ := vdb
          obtain ⟨s0, url, hv, hs0, h1, h2, hs3, hvid, hdb2⟩ :=
            upload_ok_inv db sid s3 vid uid v db2 hupl
          have hs0id : s0.id = sid := by simpa using List.find?_some hs0
          have hpres : ∀ t : Shipment,
              ((fun t : Shipment => if t.id == sid then { s0 with status := ShipmentStatus.SEALED } else t) t).id = t.id := by
            intro t
            by_cases hb : (t.id == sid) = true
            · have ht : t.id = sid := by simpa using hb
              simp [hb, hs0id, ht]
            · simp [hb]
          rw [hdb2] at hafter
          unfold ShipmentsRepository.findById at hafter hbefore
          dsimp only at hafter
          rw [find_map_of_id_eq db.shipments _ id hpres] at hafter
          rw [hbefore] at hafter
          have heq := Option.some.inj hafter
          dsimp only at heq
          by_cases hb : (s.id == sid) = true
          · have hsidq : sid = id := by
              have hstid : s.id = sid := by simpa using hb
              rw [hsid] at hstid
              exact hstid.symm
            subst hsidq
            have hss0 : s0 = s := by
              unfold ShipmentsRepository.findById at hs0
              exact (Option.some.inj (hbefore.symm.trans hs0)).symm
            subst hss0
            exact Or.inr ⟨not_terminal_cases s0.status h1 h2, s3, vid, uid, rfl⟩
          · rw [if_neg hb] at heq
            rw [← heq] at hseal
            exact absurd hseal hns

/-- C6 counterexample: uploading a proof video against the `CREATED`
shipment `sc` seals it in one step; the status trace is exactly
`CREATED, SEALED` and never contains `RECORDING` or `PROCESSING`, so a
shipment can reach `SEALED` without passing through those stages. -/
theorem C6_skip_counterexample :
    statusTrace dbDemo "sc" [Op.upload "sc" (S3Outcome.ok "url-c6") "vc6" "u1"] =
      [some ShipmentStatus.CREATED, some ShipmentStatus.SEALED] ∧
    some ShipmentStatus.RECORDING ∉
      statusTrace dbDemo "sc" [Op.upload "sc" (S3Outcome.ok "url-c6") "vc6" "u1"] ∧
    some ShipmentStatus.PROCESSING ∉
      statusTrace dbDemo "sc" [Op.upload "sc" (S3Outcome.ok "url-c6") "vc6" "u1"] :=
  ⟨by decide, by decide, by decide⟩

/-- Witness for C6: sealing the `PROCESSING` shipment `sp` by a direct
transition is accepted by the seal-origin characterization. -/
theorem C6_seal_origin_witness :
    shipPro.status = ShipmentStatus.PROCESSING ∨
    ((shipPro.status = ShipmentStatus.CREATED ∨ shipPro.status = ShipmentStatus.RECORDING ∨
        shipPro.status = ShipmentStatus.PROCESSING) ∧
      ∃ s3 vid uid,
        Op.transition "sp" { status := some ShipmentStatus.SEALED } = Op.upload "sp" s3 vid uid) :=
  C6_seal_origin dbDemo (Op.transition "sp" { status := some .SEALED }) "sp"
    shipPro shipProSealed rfl rfl (by decide) rfl

/-! Claim C7. -/

/-- C7: a successful `VideosService.upload` leaves the shipment's status
exactly `SEALED`, leaves exactly one ProofVideo persisted for that shipment,
and returns the created ProofVideo (carrying the generated id, the shipment
id, the uploader id and the URL the blob store returned). -/
theorem C7_upload_success_postcondition (db : DB) (sid : String)
    (s3 : S3Outcome) (vid uid : String) (video : ProofVideo) (db2 : DB)
    (hok : VideosService.upload db sid s3 vid uid = .ok (video, db2)) :
    statusOf db2 sid = some .SEALED ∧
    (db2.proofVideos.filter (fun v => v.shipmentId == sid)).length = 1 ∧
    video ∈ db2.proofVideos ∧
    video.id = vid ∧ video.shipmentId = sid ∧ video.uploadedById = uid ∧
    s3 = S3Outcome.ok video.videoUrl := by
  obtain ⟨s, url, hv, hs, h1, h2, hs3, hvid, hdb2⟩ :=
    upload_ok_inv db sid s3 vid uid video db2 hok
  have hsid : s.id = sid := by
    have := List.find?_some hs
    simpa using this
  have hpres : ∀ t : Shipment,
      ((fun t : Shipment => if t.id == sid then { s with status := ShipmentStatus.SEALED } else t) t).id = t.id := by
    intro t
    by_cases hb : (t.id == sid) = true
    · have ht : t.id = sid := by simpa using hb
      simp [hb, hsid, ht]
    · simp [hb]
  constructor
  · unfold statusOf ShipmentsRepository.findById
    rw [hdb2]
    dsimp only
    rw [find_map_of_id_eq db.shipments _ sid hpres]
    unfold ShipmentsRepository.findById at hs
    rw [hs]
    simp [hsid]
  · constructor
    · rw [hdb2]
      dsimp only
      rw [List.filter_append]
      have hnil : db.proofVideos.filter (fun v => v.shipmentId == sid) = [] := by
        rw [List.filter_eq_nil_iff]
        intro a ha
        unfold VideosRepository.findByShipmentId at hv
        exact List.find?_eq_none.mp hv a ha
      rw [hnil]
      rw [hvid]
      simp
    · refine ⟨?_, ?_, ?_, ?_, ?_⟩
      · rw [hdb2]
        exact List.mem_append_right _ (List.mem_singleton.mpr rfl)
      · rw [hvid]
      · rw [hvid]
      · rw [hvid]
      · rw [hs3, hvid]

/-- Witness for C7: the concrete upload against shipment `sc` leaves it
`SEALED`. -/
theorem C7_upload_success_witness : statusOf db7 "sc" = some ShipmentStatus.SEALED :=
  (C7_upload_success_postcondition dbDemo "sc" (S3Outcome.ok "u7") "v7" "u1" vid7 db7 rfl).1

/-! Claim C8. -/

/-- C8: when the blob-storage call fails, `VideosService.upload` fails with
`UploadFailed`; the interrupted-run semantics shows no database write has
been issued at that point (even the write-prefix run returns the same
error), and the operational step leaves the database unchanged, so the
upload may be retried. -/
theorem C8_blob_failure_no_persist (db : DB) (sid vid uid msg : String)
    (s : Shipment)
    (hv : VideosRepository.findByShipmentId db sid = none)
    (hs : ShipmentsRepository.findById db sid = some s)
    (h1 : s.status ≠ .SEALED) (h2 : s.status ≠ .FAILED) :
    VideosService.upload db sid (.failed msg) vid uid = .error (.uploadFailed msg) ∧
    VideosService.uploadStoppedBeforeSeal db sid (.failed msg) vid uid =
      .error (.uploadFailed msg) ∧
    step db (Op.upload sid (.failed msg) vid uid) = db := by
  refine ⟨upload_blobfail_eq db sid vid uid msg s hv hs h1 h2, ?_, ?_⟩
  · unfold VideosService.uploadStoppedBeforeSeal
    rw [hv, hs]
    dsimp only
    rw [if_neg h1, if_neg h2]
  · unfold step
    dsimp only
    rw [upload_blobfail_eq db sid vid uid msg s hv hs h1 h2]

/-- Witness for C8: a failing blob store turns the upload against `sc` into
an `UploadFailed` error. -/
theorem C8_blob_failure_witness :
    VideosService.upload dbDemo "sc" (S3Outcome.failed "s3-down") "v8" "u1" =
      .error (.uploadFailed "s3-down") :=
  (C8_blob_failure_no_persist dbDemo "sc" "v8" "u1" "s3-down" shipCre rfl rfl
    (by decide) (by decide)).1

/-! Claim C9. -/

/-- C9: `validateToken` fails with `NotFound` when no ShareLink carries the
token, fails with `Expired` when the link exists but `now > expiresAt`, and
otherwise returns the bound link; the three cases are exhaustive and
mutually exclusive, and the function never writes (it returns no new
database state), so expired links are not deleted by validation. -/
theorem C9_validateToken_trichotomy (db : DB) (token : String) (now : Int) :
    (ShareLinksRepository.findByToken db token = none →
      ShareLinksService.validateToken db token now = .error (.notFound "ShareLink" token)) ∧
    (∀ l, ShareLinksRepository.findByToken db token = some l →
      (now > l.expiresAt →
        ShareLinksService.validateToken db token now = .error .expired) ∧
      (¬ now > l.expiresAt →
        ShareLinksService.validateToken db token now = .ok l)) := by
  constructor
  · intro h
    unfold ShareLinksService.validateToken
    rw [h]
  · intro l hl
    constructor
    · intro hexp
      unfold ShareLinksService.validateToken
      rw [hl]
      dsimp only
      rw [if_pos hexp]
    · intro hexp
      unfold ShareLinksService.validateToken
      rw [hl]
      dsimp only
      rw [if_neg hexp]

/-- Witness for C9: validating the link that expired at time 100 at time 500
fails with `Expired`. -/
theorem C9_validateToken_witness :
    ShareLinksService.validateToken dbLinks "tokOld" 500 = .error .expired :=
  ((C9_validateToken_trichotomy dbLinks "tokOld" 500).2 linkOld rfl).1 (by decide)

/-! Claim C10. -/

/-- C10: `cleanupExpired` removes exactly the ShareLinks with
`expiresAt < now` (a link survives iff it was present and `now ≤ expiresAt`),
returns the number removed, touches no other table, is total (it always
succeeds by construction), and an immediately repeated call removes 0. -/
theorem C10_cleanupExpired_exact (db : DB) (now : Int) :
    (ShareLinksService.cleanupExpired db now).1 =
      (db.shareLinks.filter (fun l => l.expiresAt < now)).length ∧
    (∀ l, l ∈ (ShareLinksService.cleanupExpired db now).2.shareLinks ↔
      (l ∈ db.shareLinks ∧ now ≤ l.expiresAt)) ∧
    (ShareLinksService.cleanupExpired db now).1 +
      ((ShareLinksService.cleanupExpired db now).2.shareLinks).length =
      db.shareLinks.length ∧
    (ShareLinksService.cleanupExpired db now).2.shipments = db.shipments ∧
    (ShareLinksService.cleanupExpired db now).2.proofVideos = db.proofVideos ∧
    (ShareLinksService.cleanupExpired
      ((ShareLinksService.cleanupExpired db now).2) now).1 = 0 := by
  unfold ShareLinksService.cleanupExpired ShareLinksRepository.deleteExpired
  refine ⟨rfl, ?_, ?_, rfl, rfl, ?_⟩
  · intro l
    simp [List.mem_filter, not_lt]
  · exact length_filter_split db.shareLinks (fun l => l.expiresAt < now)
  · simp [List.filter_filter]

end ProofGuard
